import Mathlib

/-!
Verification of the availability calculator of the `ssd` repository
(`src/react-app/components/TimeSlotPicker.tsx`).

The calculator is embedded shallowly at minute granularity: a time instant
is an `Int`, the number of minutes since a fixed epoch midnight.  A calendar
day therefore spans 1440 consecutive minutes, `Int.fdiv t 1440` is the day
bucket of instant `t` (moment's `isSame(_, 'day')`), and
`1440 * (t.fdiv 1440)` is moment's `startOf('day')`.

The source file contains two revisions of the `timeSlots` computation:
* the revision that always starts generation at the work-day start
  (the behaviour the specification adopts), embedded as `timeSlots`;
* the revision that anchors generation to the current wall-clock time when
  the selected day is today, embedded as `timeSlotsAnchored` with the
  wall-clock read made an explicit `now` parameter.

The `while` loops are embedded as structurally recursive functions on an
explicit fuel argument; the wrappers supply a fuel that is provably
sufficient, so the fuel never truncates the loop (`genSlotsFuel_nil_of_over`
and the sufficiency bounds below make this precise).
-/

namespace SSD

/-- An appointment record (`AppointmentType` in `shared/types`): owning
professional, absolute start instant and absolute end instant, both in
minutes. -/
structure AppointmentType where
  professional_id : Int
  appointment_date : Int
  end_date : Int
deriving Repr, DecidableEq

/-- A professional's schedule configuration (`ProfessionalType`): the four
nullable `"HH:MM"` time-of-day strings are embedded as optional
(hour, minute) pairs, the result of the source's `split(':').map(Number)`. -/
structure ProfessionalType where
  id : Int
  work_start_time : Option (Int × Int)
  work_end_time : Option (Int × Int)
  lunch_start_time : Option (Int × Int)
  lunch_end_time : Option (Int × Int)
deriving Repr, DecidableEq

/-- A generated slot: display label (`format('HH:mm')`) and the start
instant (`toDate()`). -/
structure Slot where
  label : String
  value : Int
deriving Repr, DecidableEq

/-- Moment's `startOf('day')`: midnight of the day containing `t`. -/
def startOfDay (t : Int) : Int := 1440 * (t.fdiv 1440)

/-- Moment's `isSame(_, 'day')`: the two instants fall in the same
calendar day. -/
def sameDay (a b : Int) : Bool := a.fdiv 1440 == b.fdiv 1440

/-- Moment's `startOf('day').hour(h).minute(m)` applied to `selectedDate`:
the instant at `h` hours `m` minutes on the selected day. -/
def dayTime (selectedDate h m : Int) : Int := startOfDay selectedDate + h * 60 + m

/-- The fixed slot granularity (`const slotInterval = 30`). -/
def slotInterval : Int := 30

/-- Two-digit zero padding used by moment's `HH`/`mm` format tokens. -/
def pad2 (n : Nat) : String := if n < 10 then "0" ++ toString n else toString n

/-- Moment's `format('HH:mm')` of an instant. -/
def formatHHmm (t : Int) : String :=
  pad2 ((t.emod 1440).ediv 60).toNat ++ ":" ++ pad2 (t.emod 60).toNat

/-- Builds the slot object pushed by the loop body. -/
def mkSlot (t : Int) : Slot := ⟨formatHHmm t, t⟩

/-- The `isOccupied` test of the loop body: some appointment of the (already
filtered) list satisfies
`currentTime.isBefore(existingEnd) && slotEnd.isAfter(existingStart)`. -/
def isOccupied (apps : List AppointmentType) (currentTime slotEnd : Int) : Bool :=
  apps.any fun app =>
    decide (currentTime < app.end_date) && decide (slotEnd > app.appointment_date)

/-- The `isDuringLunch` test of the loop body:
`currentTime.isBetween(lunchStart, lunchEnd, undefined, '[)')
 || slotEnd.isAfter(lunchStart) && currentTime.isBefore(lunchStart)`,
and `false` when either lunch bound is absent. -/
def isDuringLunch (lunchStart lunchEnd : Option Int) (currentTime slotEnd : Int) : Bool :=
  match lunchStart, lunchEnd with
  | some ls, some le =>
      (decide (ls ≤ currentTime) && decide (currentTime < le))
        || (decide (slotEnd > ls) && decide (currentTime < ls))
  | _, _ => false

/-- The generation loop of the revision that always starts at the work-day
start: `while (currentTime.isBefore(workDayEnd))`, pushing the slot when
`!isOccupied && !isDuringLunch && slotEnd.isSameOrBefore(workDayEnd)`,
then stepping by `slotInterval` minutes.  Structural recursion on `fuel`. -/
def genSlotsFuel (workDayEnd serviceDuration : Int) (apps : List AppointmentType)
    (lunchStart lunchEnd : Option Int) : Nat → Int → List Slot
  | 0, _ => []
  | fuel + 1, currentTime =>
    if currentTime < workDayEnd then
      let slotEnd := currentTime + serviceDuration
      let rest := genSlotsFuel workDayEnd serviceDuration apps lunchStart lunchEnd fuel
        (currentTime + slotInterval)
      if !isOccupied apps currentTime slotEnd
          && !isDuringLunch lunchStart lunchEnd currentTime slotEnd
          && decide (slotEnd ≤ workDayEnd) then
        mkSlot currentTime :: rest
      else rest
    else []

/-- The generation loop of the revision that anchors to the current time:
`while (true) { ... if (slotEnd.isAfter(workDayEnd)) break; ... }`,
pushing the slot when `!isOccupied && !isDuringLunch`. -/
def genSlotsRev1Fuel (workDayEnd serviceDuration : Int) (apps : List AppointmentType)
    (lunchStart lunchEnd : Option Int) : Nat → Int → List Slot
  | 0, _ => []
  | fuel + 1, currentTime =>
    let slotEnd := currentTime + serviceDuration
    if workDayEnd < slotEnd then []
    else
      let rest := genSlotsRev1Fuel workDayEnd serviceDuration apps lunchStart lunchEnd fuel
        (currentTime + slotInterval)
      if !isOccupied apps currentTime slotEnd
          && !isDuringLunch lunchStart lunchEnd currentTime slotEnd then
        mkSlot currentTime :: rest
      else rest

/-- The appointment filter shared by both revisions:
`app.professional_id === professional.id &&
 moment(app.appointment_date).isSame(selectedDate, 'day')`. -/
def professionalAppointments (appointments : List AppointmentType)
    (prof : ProfessionalType) (selectedDate : Int) : List AppointmentType :=
  appointments.filter fun app =>
    app.professional_id == prof.id && sameDay app.appointment_date selectedDate

/-- The `timeSlots` computation in the revision the specification adopts:
no wall-clock read, generation always starts at the work-day start.
Returns `[]` when the professional is absent or lacks a configured work
start or end time. -/
def timeSlots (selectedDate : Int) (appointments : List AppointmentType)
    (professional : Option ProfessionalType) (serviceDuration : Int) : List Slot :=
  match professional with
  | none => []
  | some prof =>
    match prof.work_start_time, prof.work_end_time with
    | some (startHour, startMinute), some (endHour, endMinute) =>
      let workDayStart := dayTime selectedDate startHour startMinute
      let workDayEnd := dayTime selectedDate endHour endMinute
      let lunchStart := prof.lunch_start_time.map fun p => dayTime selectedDate p.1 p.2
      let lunchEnd := prof.lunch_end_time.map fun p => dayTime selectedDate p.1 p.2
      genSlotsFuel workDayEnd serviceDuration
        (professionalAppointments appointments prof selectedDate) lunchStart lunchEnd
        (workDayEnd - workDayStart).toNat workDayStart
    | _, _ => []

/-- The start-time rounding of the anchored revision:
`now.clone().minutes(Math.ceil(now.minutes() / slotInterval) * slotInterval).seconds(0)`,
at minute granularity: the minutes-of-hour field is rounded up to the next
multiple of `slotInterval` (overflowing into the next hour at 60). -/
def roundUpToInterval (now : Int) : Int :=
  now - now.emod 60 + ((now.emod 60 + slotInterval - 1).ediv slotInterval) * slotInterval

/-- The `timeSlots` computation in the wall-clock-anchored revision, with
the `moment()` read made an explicit `now` parameter: when the selected day
is the current day and `now` is after the work-day start, generation starts
at `now` rounded up to the slot granularity; otherwise at the work-day
start. -/
def timeSlotsAnchored (now selectedDate : Int) (appointments : List AppointmentType)
    (professional : Option ProfessionalType) (serviceDuration : Int) : List Slot :=
  match professional with
  | none => []
  | some prof =>
    match prof.work_start_time, prof.work_end_time with
    | some (startHour, startMinute), some (endHour, endMinute) =>
      let workDayStart := dayTime selectedDate startHour startMinute
      let workDayEnd := dayTime selectedDate endHour endMinute
      let lunchStart := prof.lunch_start_time.map fun p => dayTime selectedDate p.1 p.2
      let lunchEnd := prof.lunch_end_time.map fun p => dayTime selectedDate p.1 p.2
      let currentTime :=
        if sameDay selectedDate now && decide (workDayStart < now) then
          roundUpToInterval now
        else workDayStart
      genSlotsRev1Fuel workDayEnd serviceDuration
        (professionalAppointments appointments prof selectedDate) lunchStart lunchEnd
        (workDayEnd - serviceDuration - currentTime + slotInterval).toNat currentTime
    | _, _ => []

/-! ### Helper lemmas about the generation loop -/

/-- Every slot the loop emits from position `cur` starts a whole number of
30-minute steps after `cur`, is below the work-day end, ends no later than
the work-day end, and passes both the occupancy and the lunch tests. -/
theorem mem_genSlotsFuel {workDayEnd serviceDuration : Int} {apps : List AppointmentType}
    {lunchStart lunchEnd : Option Int} {s : Slot} :
    ∀ {fuel : Nat} {cur : Int},
      s ∈ genSlotsFuel workDayEnd serviceDuration apps lunchStart lunchEnd fuel cur →
      ∃ k : Nat, s.value = cur + 30 * k ∧ s = mkSlot s.value ∧
        s.value < workDayEnd ∧ s.value + serviceDuration ≤ workDayEnd ∧
        isOccupied apps s.value (s.value + serviceDuration) = false ∧
        isDuringLunch lunchStart lunchEnd s.value (s.value + serviceDuration) = false := by
  intro fuel
  induction fuel with
  | zero => intro cur h; simp [genSlotsFuel] at h
  | succ fuel ih =>
    intro cur h
    simp only [genSlotsFuel] at h
    split_ifs at h with hlt hguard
    · rcases List.mem_cons.mp h with hs | hrest
      · subst hs
        simp only [Bool.and_eq_true, Bool.not_eq_true', decide_eq_true_eq] at hguard
        refine ⟨0, by simp [mkSlot], by simp [mkSlot], ?_⟩
        simp only [mkSlot]
        exact ⟨hlt, hguard.2, hguard.1.1, hguard.1.2⟩
      · obtain ⟨k, hk, hrec⟩ := ih hrest
        refine ⟨k + 1, ?_, hrec⟩
        simp only [slotInterval] at hk
        push_cast at hk ⊢
        omega
    · obtain ⟨k, hk, hrec⟩ := ih h
      refine ⟨k + 1, ?_, hrec⟩
      simp only [slotInterval] at hk
      push_cast at hk ⊢
      omega
    · simp at h

/-- Once the candidate's service end is already past the work-day end, the
loop never emits anything, whatever the fuel. -/
theorem genSlotsFuel_nil_of_over {workDayEnd serviceDuration : Int}
    {apps : List AppointmentType} {lunchStart lunchEnd : Option Int} :
    ∀ (fuel : Nat) (cur : Int), workDayEnd < cur + serviceDuration →
      genSlotsFuel workDayEnd serviceDuration apps lunchStart lunchEnd fuel cur = [] := by
  intro fuel
  induction fuel with
  | zero => intro cur _; rfl
  | succ fuel ih =>
    intro cur hover
    have hg : decide (cur + serviceDuration ≤ workDayEnd) = false := by
      simp only [decide_eq_false_iff_not]; omega
    simp only [genSlotsFuel, hg, Bool.and_false, Bool.false_eq_true, if_false]
    rw [ih (cur + slotInterval) (by simp only [slotInterval]; omega)]
    simp

/-- Completeness of the loop: any 30-minute-aligned candidate at or after
`cur` whose service window fits in the work day and which passes both the
occupancy and the lunch tests is emitted, provided the fuel covers the
distance to the work-day end. -/
theorem mkSlot_mem_genSlotsFuel {workDayEnd serviceDuration : Int}
    {apps : List AppointmentType} {lunchStart lunchEnd : Option Int}
    (hdur : 0 < serviceDuration) :
    ∀ (k fuel : Nat) (cur : Int),
      workDayEnd - cur ≤ 30 * fuel →
      cur + 30 * k + serviceDuration ≤ workDayEnd →
      isOccupied apps (cur + 30 * k) (cur + 30 * k + serviceDuration) = false →
      isDuringLunch lunchStart lunchEnd (cur + 30 * k) (cur + 30 * k + serviceDuration) = false →
      mkSlot (cur + 30 * k) ∈
        genSlotsFuel workDayEnd serviceDuration apps lunchStart lunchEnd fuel cur := by
  intro k
  induction k with
  | zero =>
    intro fuel cur hfuel hfit hocc hlunch
    simp only [Nat.cast_zero, mul_zero, add_zero] at hfit hocc hlunch ⊢
    obtain ⟨fuel, rfl⟩ : ∃ f, fuel = f + 1 := ⟨fuel - 1, by omega⟩
    simp only [genSlotsFuel]
    rw [if_pos (show cur < workDayEnd by omega)]
    rw [if_pos (show _ = true by simp [hocc, hlunch]; omega)]
    exact List.mem_cons_self _ _
  | succ k ih =>
    intro fuel cur hfuel hfit hocc hlunch
    have hstep : cur + 30 * (((k : Nat) + 1 : Nat) : Int) = (cur + 30) + 30 * (k : Int) := by
      push_cast; ring
    rw [hstep] at hfit hocc hlunch ⊢
    obtain ⟨fuel, rfl⟩ : ∃ f, fuel = f + 1 := ⟨fuel - 1, by omega⟩
    have hmem := ih fuel (cur + 30) (by omega) hfit hocc hlunch
    simp only [genSlotsFuel]
    rw [if_pos (show cur < workDayEnd by omega)]
    have h30 : cur + slotInterval = cur + 30 := rfl
    rw [h30]
    split
    · exact List.mem_cons_of_mem _ hmem
    · exact hmem

/-- The slot starts the loop emits are strictly increasing. -/
theorem genSlotsFuel_pairwise {workDayEnd serviceDuration : Int}
    {apps : List AppointmentType} {lunchStart lunchEnd : Option Int} :
    ∀ (fuel : Nat) (cur : Int),
      List.Pairwise (fun a b => a.value < b.value)
        (genSlotsFuel workDayEnd serviceDuration apps lunchStart lunchEnd fuel cur) := by
  intro fuel
  induction fuel with
  | zero => intro cur; simp [genSlotsFuel]
  | succ fuel ih =>
    intro cur
    simp only [genSlotsFuel]
    split_ifs with hlt hguard
    · refine List.Pairwise.cons ?_ (ih (cur + slotInterval))
      intro y hy
      obtain ⟨k, hk, -⟩ := mem_genSlotsFuel hy
      simp only [slotInterval] at hk
      simp only [mkSlot]
      omega
    · exact ih (cur + slotInterval)
    · exact List.Pairwise.nil

/-- Consecutive slot starts emitted by the loop are strictly increasing and
differ by a multiple of 30 minutes. -/
theorem genSlotsFuel_chain {workDayEnd serviceDuration : Int}
    {apps : List AppointmentType} {lunchStart lunchEnd : Option Int} :
    ∀ (fuel : Nat) (cur : Int),
      List.Chain' (fun a b => a.value < b.value ∧ (30 : Int) ∣ b.value - a.value)
        (genSlotsFuel workDayEnd serviceDuration apps lunchStart lunchEnd fuel cur) := by
  intro fuel
  induction fuel with
  | zero => intro cur; simp [genSlotsFuel]
  | succ fuel ih =>
    intro cur
    simp only [genSlotsFuel]
    split_ifs with hlt hguard
    · refine List.chain'_cons'.mpr ⟨?_, ih (cur + slotInterval)⟩
      intro y hy
      have hy' : y ∈ genSlotsFuel workDayEnd serviceDuration apps lunchStart lunchEnd fuel
          (cur + slotInterval) := List.mem_of_mem_head? hy
      obtain ⟨k, hk, -⟩ := mem_genSlotsFuel hy'
      simp only [slotInterval] at hk
      simp only [mkSlot]
      refine ⟨by omega, ⟨(k : Int) + 1, by omega⟩⟩
    · exact ih (cur + slotInterval)
    · simp

/-- Length of the loop output when there are no appointments and no lunch
break: one slot per 30-minute step whose service window still fits. -/
theorem genSlotsFuel_length_free {workDayEnd serviceDuration : Int}
    (hdur : 0 < serviceDuration) :
    ∀ (fuel : Nat) (cur : Int), workDayEnd - cur ≤ 30 * fuel →
      (genSlotsFuel workDayEnd serviceDuration [] none none fuel cur).length =
        if serviceDuration ≤ workDayEnd - cur
        then (workDayEnd - cur - serviceDuration).toNat / 30 + 1
        else 0 := by
  intro fuel
  induction fuel with
  | zero =>
    intro cur hfuel
    rw [if_neg (by omega)]
    rfl
  | succ fuel ih =>
    intro cur hfuel
    by_cases hfit : serviceDuration ≤ workDayEnd - cur
    · rw [if_pos hfit]
      simp only [genSlotsFuel, isOccupied, isDuringLunch, List.any_nil, Bool.not_false,
        Bool.true_and]
      rw [if_pos (show cur < workDayEnd by omega)]
      rw [if_pos (show decide (cur + serviceDuration ≤ workDayEnd) = true by
        simp only [decide_eq_true_eq]; omega)]
      have hrest := ih (cur + slotInterval) (by simp only [slotInterval]; omega)
      simp only [slotInterval] at hrest
      simp only [slotInterval, List.length_cons]
      rw [hrest]
      split_ifs with hfit'
      · omega
      · omega
    · rw [if_neg hfit]
      rw [genSlotsFuel_nil_of_over (fuel + 1) cur (by omega)]
      rfl

/-- On every input on which the anchored revision does not anchor (it starts
at the same position as the spec-adopted revision), the two generation loops
agree, for positive service durations and sufficient fuels. -/
theorem genSlotsRev1Fuel_eq_genSlotsFuel {workDayEnd serviceDuration : Int}
    {apps : List AppointmentType} {lunchStart lunchEnd : Option Int}
    (hdur : 0 < serviceDuration) :
    ∀ (f1 f2 : Nat) (cur : Int),
      workDayEnd - serviceDuration - cur + 30 ≤ 30 * f1 →
      workDayEnd - cur ≤ 30 * f2 →
      genSlotsRev1Fuel workDayEnd serviceDuration apps lunchStart lunchEnd f1 cur =
        genSlotsFuel workDayEnd serviceDuration apps lunchStart lunchEnd f2 cur := by
  intro f1
  induction f1 with
  | zero =>
    intro f2 cur hf1 hf2
    rw [genSlotsFuel_nil_of_over f2 cur (by omega)]
    rfl
  | succ f1 ih =>
    intro f2 cur hf1 hf2
    by_cases hover : workDayEnd < cur + serviceDuration
    · rw [genSlotsFuel_nil_of_over f2 cur hover]
      simp only [genSlotsRev1Fuel]
      rw [if_pos hover]
    · obtain ⟨f2, rfl⟩ : ∃ f, f2 = f + 1 := ⟨f2 - 1, by omega⟩
      simp only [genSlotsRev1Fuel, genSlotsFuel]
      rw [if_neg hover, if_pos (show cur < workDayEnd by omega)]
      have hrest := ih f2 (cur + slotInterval) (by simp only [slotInterval]; omega)
        (by simp only [slotInterval]; omega)
      rw [hrest]
      have hdec : decide (cur + serviceDuration ≤ workDayEnd) = true := by
        simp only [decide_eq_true_eq]; omega
      rw [hdec, Bool.and_true]

/-- Unfolding of `timeSlots` when the professional has configured work
hours. -/
theorem timeSlots_eq (selectedDate : Int) (appointments : List AppointmentType)
    (prof : ProfessionalType) (serviceDuration sh sm eh em : Int)
    (hws : prof.work_start_time = some (sh, sm))
    (hwe : prof.work_end_time = some (eh, em)) :
    timeSlots selectedDate appointments (some prof) serviceDuration =
      genSlotsFuel (dayTime selectedDate eh em) serviceDuration
        (professionalAppointments appointments prof selectedDate)
        (prof.lunch_start_time.map fun p => dayTime selectedDate p.1 p.2)
        (prof.lunch_end_time.map fun p => dayTime selectedDate p.1 p.2)
        (dayTime selectedDate eh em - dayTime selectedDate sh sm).toNat
        (dayTime selectedDate sh sm) := by
  obtain ⟨pid, pws, pwe, pls, ple⟩ := prof
  simp only at hws hwe
  subst hws
  subst hwe
  rfl

/-- Unfolding of `timeSlots` when the professional lacks a configured work
start or end time. -/
theorem timeSlots_eq_nil (selectedDate : Int) (appointments : List AppointmentType)
    (prof : ProfessionalType) (serviceDuration : Int)
    (h : prof.work_start_time = none ∨ prof.work_end_time = none) :
    timeSlots selectedDate appointments (some prof) serviceDuration = [] := by
  obtain ⟨pid, pws, pwe, pls, ple⟩ := prof
  rcases h with h | h <;> simp only at h <;> subst h
  · rfl
  · cases pws with
    | none => rfl
    | some p => cases p; rfl

/-! ### Concrete configurations used by the examples -/

/-- A professional working 09:00 to 17:00 with lunch 12:00 to 13:00. -/
def lunchProf : ProfessionalType :=
  ⟨1, some (9, 0), some (17, 0), some (12, 0), some (13, 0)⟩

/-- A professional working 09:00 to 17:00 with no lunch break. -/
def plainProf : ProfessionalType :=
  ⟨1, some (9, 0), some (17, 0), none, none⟩

/-! ### Claims -/

/-- C2, counterexample: with work 09:00 to 17:00, lunch 12:00 to 13:00, no
appointments and duration 30, it is false that the output excludes the slot
starting at 11:30 (minute 690) while including 13:00 (minute 780): the code
includes 11:30, because `slotEnd.isAfter(lunchStart)` is false when the
service window ends exactly at lunch start. -/
theorem lunch_boundary_slot_included_counterexample :
    ¬((690 : Int) ∉ (timeSlots 0 [] (some lunchProf) 30).map Slot.value ∧
      (780 : Int) ∈ (timeSlots 0 [] (some lunchProf) 30).map Slot.value) := by decide

/-- C2, amended: with work hours 09:00 to 17:00, lunch break 12:00 to 13:00,
no appointments, and service duration 30 minutes, the output includes the
slot starting at 11:30 (its service window ends exactly at lunch start and
under the half-open overlap rule does not overlap lunch) and includes the
slot starting at 13:00. -/
theorem lunch_boundary_example_amended :
    (690 : Int) ∈ (timeSlots 0 [] (some lunchProf) 30).map Slot.value ∧
    (780 : Int) ∈ (timeSlots 0 [] (some lunchProf) 30).map Slot.value := by decide

/-- C3, counterexample: with work 09:00 to 17:00, lunch 12:00 to 13:00, no
appointments and duration 30, the output contains the consecutive entries
11:30 (minute 690) and 13:00 (minute 780), which differ by 90 minutes, so
consecutive slot starts are not always exactly 30 minutes apart. -/
theorem slot_spacing_counterexample :
    ¬ List.Chain' (fun a b => b = a + 30)
      ((timeSlots 0 [] (some lunchProf) 30).map Slot.value) := by
  intro h
  have e : (timeSlots 0 [] (some lunchProf) 30).map Slot.value
      = [540, 570, 600, 630, 660, 690, 780, 810, 840, 870, 900, 930, 960, 990] := by decide
  rw [e] at h
  simp [List.chain'_cons] at h

/-- C3, amended: for every input, the start times of consecutive entries in
the output are strictly increasing and differ by a (positive) multiple of
30 minutes. -/
theorem slot_spacing_multiple_of_interval (selectedDate : Int)
    (appointments : List AppointmentType) (professional : Option ProfessionalType)
    (serviceDuration : Int) :
    List.Chain' (fun a b => a.value < b.value ∧ (30 : Int) ∣ b.value - a.value)
      (timeSlots selectedDate appointments professional serviceDuration) := by
  cases professional with
  | none => simp [timeSlots]
  | some prof =>
    obtain ⟨pid, pws, pwe, pls, ple⟩ := prof
    cases pws with
    | none => simp [timeSlots]
    | some p =>
      obtain ⟨sh, sm⟩ := p
      cases pwe with
      | none => simp [timeSlots]
      | some q =>
        obtain ⟨eh, em⟩ := q
        rw [timeSlots_eq selectedDate appointments _ serviceDuration sh sm eh em rfl rfl]
        exact genSlotsFuel_chain _ _

/-- C5: every slot in the output ends (start plus service duration) no later
than the professional's work end time on the selected day; no slot's service
window extends past closing time. -/
theorem slot_end_within_work_hours (selectedDate : Int)
    (appointments : List AppointmentType) (prof : ProfessionalType)
    (serviceDuration eh em : Int)
    (hwe : prof.work_end_time = some (eh, em)) :
    ∀ s ∈ timeSlots selectedDate appointments (some prof) serviceDuration,
      s.value + serviceDuration ≤ dayTime selectedDate eh em := by
  intro s hs
  cases hws : prof.work_start_time with
  | none =>
    rw [timeSlots_eq_nil _ _ _ _ (Or.inl hws)] at hs
    simp at hs
  | some p =>
    obtain ⟨sh, sm⟩ := p
    rw [timeSlots_eq selectedDate appointments prof serviceDuration sh sm eh em hws hwe] at hs
    obtain ⟨k, -, -, -, hfit, -⟩ := mem_genSlotsFuel hs
    exact hfit

/-- C5, witness: at work hours 09:00 to 17:00 with duration 60, the emitted
slot 09:00 (minute 540) ends by 17:00 (minute 1020). -/
theorem slot_end_within_work_hours_witness :
    (mkSlot 540).value + 60 ≤ dayTime 0 17 0 :=
  slot_end_within_work_hours 0 [] plainProf 60 17 0 rfl (mkSlot 540) (by decide)

/-- C8: when the professional is absent, or the professional's work start
time or work end time is null, the calculator returns the empty sequence,
whatever the selected date, appointments and service duration. -/
theorem timeSlots_empty_when_unconfigured (selectedDate : Int)
    (appointments : List AppointmentType) (serviceDuration : Int) :
    timeSlots selectedDate appointments none serviceDuration = [] ∧
    ∀ prof : ProfessionalType,
      prof.work_start_time = none ∨ prof.work_end_time = none →
      timeSlots selectedDate appointments (some prof) serviceDuration = [] := by
  refine ⟨rfl, ?_⟩
  intro prof h
  exact timeSlots_eq_nil _ _ _ _ h

/-- C8, witness: a professional with no work start time yields the empty
sequence even with appointments present. -/
theorem timeSlots_empty_when_unconfigured_witness :
    timeSlots 0 [⟨1, 600, 630⟩] (some ⟨1, none, some (17, 0), none, none⟩) 45 = [] :=
  (timeSlots_empty_when_unconfigured 0 [⟨1, 600, 630⟩] 45).2 _ (Or.inl rfl)

/-- C9: for every input with positive service duration, including inputs
whose schedule violates the stated invariant, the calculator (a total
function) returns an ordered sequence: slot start times are strictly
increasing. -/
theorem timeSlots_total_and_ordered (selectedDate : Int)
    (appointments : List AppointmentType) (professional : Option ProfessionalType)
    (serviceDuration : Int) (hdur : 0 < serviceDuration) :
    List.Pairwise (fun a b => a.value < b.value)
      (timeSlots selectedDate appointments professional serviceDuration) := by
  cases professional with
  | none => simp [timeSlots]
  | some prof =>
    obtain ⟨pid, pws, pwe, pls, ple⟩ := prof
    cases pws with
    | none => simp [timeSlots]
    | some p =>
      obtain ⟨sh, sm⟩ := p
      cases pwe with
      | none => simp [timeSlots]
      | some q =>
        obtain ⟨eh, em⟩ := q
        rw [timeSlots_eq selectedDate appointments _ serviceDuration sh sm eh em rfl rfl]
        exact genSlotsFuel_pairwise _ _

/-- C9, witness: the calculator returns an ordered (here empty) sequence
even on a schedule violating the invariant, with inverted work hours
17:00 to 09:00 and inverted lunch bounds. -/
theorem timeSlots_total_and_ordered_witness :
    List.Pairwise (fun a b => a.value < b.value)
      (timeSlots 0 [] (some ⟨1, some (17, 0), some (9, 0), some (13, 0), some (12, 0)⟩) 30) :=
  timeSlots_total_and_ordered 0 []
    (some ⟨1, some (17, 0), some (9, 0), some (13, 0), some (12, 0)⟩) 30 (by decide)

/-- C1: the calculator is deterministic and reads no wall clock: two
invocations with identical inputs give identical output, and the output
contains every schedule-conformant slot (30-minute aligned from the work
start, service window within work hours, not occupied, not during lunch) --
no term of the statement refers to a current time, so membership holds
whether or not the slot start is in the past at invocation time. -/
theorem timeSlots_deterministic_and_complete (selectedDate : Int)
    (appointments : List AppointmentType) (prof : ProfessionalType)
    (serviceDuration sh sm eh em : Int)
    (hdur : 0 < serviceDuration)
    (hws : prof.work_start_time = some (sh, sm))
    (hwe : prof.work_end_time = some (eh, em)) :
    (timeSlots selectedDate appointments (some prof) serviceDuration =
      timeSlots selectedDate appointments (some prof) serviceDuration) ∧
    ∀ k : Nat,
      dayTime selectedDate sh sm + 30 * k + serviceDuration ≤ dayTime selectedDate eh em →
      isOccupied (professionalAppointments appointments prof selectedDate)
        (dayTime selectedDate sh sm + 30 * k)
        (dayTime selectedDate sh sm + 30 * k + serviceDuration) = false →
      isDuringLunch (prof.lunch_start_time.map fun p => dayTime selectedDate p.1 p.2)
        (prof.lunch_end_time.map fun p => dayTime selectedDate p.1 p.2)
        (dayTime selectedDate sh sm + 30 * k)
        (dayTime selectedDate sh sm + 30 * k + serviceDuration) = false →
      mkSlot (dayTime selectedDate sh sm + 30 * k) ∈
        timeSlots selectedDate appointments (some prof) serviceDuration := by
  refine ⟨rfl, ?_⟩
  intro k hfit hocc hlunch
  rw [timeSlots_eq selectedDate appointments prof serviceDuration sh sm eh em hws hwe]
  exact mkSlot_mem_genSlotsFuel hdur k _ _ (by omega) hfit hocc hlunch

/-- C1, witness: at work hours 09:00 to 17:00 with no lunch, duration 30,
the conformant slot 09:00 (minute 540) is in the output. -/
theorem timeSlots_deterministic_and_complete_witness :
    mkSlot (dayTime 0 9 0 + 30 * ((0 : Nat) : Int)) ∈ timeSlots 0 [] (some plainProf) 30 :=
  (timeSlots_deterministic_and_complete 0 [] plainProf 30 9 0 17 0
      (by decide) rfl rfl).2 0 (by decide) (by decide) (by decide)

/-- C4: with a valid work window, no appointments and no lunch break, the
number of generated slots is floor((work_minutes - duration)/30) + 1 when
the duration fits in the window and 0 otherwise; work 09:00 to 17:00 with
duration 60 yields the 15 slots 09:00, 09:30, ..., 16:00; a duration of
exactly the window (480) yields exactly the slot 09:00, and a larger
duration (481) yields no slot. -/
theorem slot_count_formula :
    (∀ (selectedDate pid sh sm eh em serviceDuration : Int),
      0 < serviceDuration →
      sh * 60 + sm < eh * 60 + em →
      (timeSlots selectedDate []
          (some ⟨pid, some (sh, sm), some (eh, em), none, none⟩) serviceDuration).length =
        if serviceDuration ≤ eh * 60 + em - (sh * 60 + sm)
        then (eh * 60 + em - (sh * 60 + sm) - serviceDuration).toNat / 30 + 1
        else 0) ∧
    (timeSlots 0 [] (some plainProf) 60).map Slot.value =
      [540, 570, 600, 630, 660, 690, 720, 750, 780, 810, 840, 870, 900, 930, 960] ∧
    (timeSlots 0 [] (some plainProf) 480).map Slot.value = [540] ∧
    (timeSlots 0 [] (some plainProf) 481).map Slot.value = [] := by
  refine ⟨?_, by decide, by decide, by decide⟩
  intro selectedDate pid sh sm eh em serviceDuration hdur hlt
  rw [timeSlots_eq selectedDate [] _ serviceDuration sh sm eh em rfl rfl]
  show (genSlotsFuel (dayTime selectedDate eh em) serviceDuration [] none none
      ((dayTime selectedDate eh em - dayTime selectedDate sh sm).toNat)
      (dayTime selectedDate sh sm)).length = _
  have hW : dayTime selectedDate eh em - dayTime selectedDate sh sm
      = eh * 60 + em - (sh * 60 + sm) := by
    simp only [dayTime]; ring
  rw [genSlotsFuel_length_free hdur
    ((dayTime selectedDate eh em - dayTime selectedDate sh sm).toNat)
    (dayTime selectedDate sh sm) (by omega)]
  rw [hW]

/-- C4, witness: work 09:00 to 17:00, duration 60: the count formula applies
and evaluates to 15. -/
theorem slot_count_formula_witness :
    (0 : Int) < 60 ∧ (9 : Int) * 60 + 0 < 17 * 60 + 0 ∧
    (timeSlots 0 [] (some ⟨1, some (9, 0), some (17, 0), none, none⟩) 60).length =
      if (60 : Int) ≤ 17 * 60 + 0 - (9 * 60 + 0)
      then ((17 : Int) * 60 + 0 - (9 * 60 + 0) - 60).toNat / 30 + 1
      else 0 :=
  ⟨by decide, by decide, slot_count_formula.1 0 1 9 0 17 0 60 (by decide) (by decide)⟩

/-- C6: no output slot's half-open service window overlaps the half-open
interval of any appointment of the selected professional on the selected
day; in particular with one appointment 10:00 to 10:30 and duration 30, the
candidate 10:00 is excluded while 09:30 and 10:30 are included. -/
theorem slots_do_not_overlap_appointments (selectedDate : Int)
    (appointments : List AppointmentType) (prof : ProfessionalType)
    (serviceDuration : Int) :
    (∀ s ∈ timeSlots selectedDate appointments (some prof) serviceDuration,
      ∀ app ∈ appointments, app.professional_id = prof.id →
        sameDay app.appointment_date selectedDate = true →
        ¬(s.value < app.end_date ∧ app.appointment_date < s.value + serviceDuration)) ∧
    ((600 : Int) ∉ (timeSlots 0 [⟨1, 600, 630⟩] (some plainProf) 30).map Slot.value ∧
      (570 : Int) ∈ (timeSlots 0 [⟨1, 600, 630⟩] (some plainProf) 30).map Slot.value ∧
      (630 : Int) ∈ (timeSlots 0 [⟨1, 600, 630⟩] (some plainProf) 30).map Slot.value) := by
  refine ⟨?_, by decide, by decide, by decide⟩
  intro s hs app happ hid hday hover
  cases hws : prof.work_start_time with
  | none =>
    rw [timeSlots_eq_nil _ _ _ _ (Or.inl hws)] at hs
    simp at hs
  | some p =>
    cases hwe : prof.work_end_time with
    | none =>
      rw [timeSlots_eq_nil _ _ _ _ (Or.inr hwe)] at hs
      simp at hs
    | some q =>
      obtain ⟨sh, sm⟩ := p
      obtain ⟨eh, em⟩ := q
      rw [timeSlots_eq selectedDate appointments prof serviceDuration sh sm eh em hws hwe] at hs
      obtain ⟨k, -, -, -, -, hocc, -⟩ := mem_genSlotsFuel hs
      have hmem : app ∈ professionalAppointments appointments prof selectedDate := by
        simp [professionalAppointments, List.mem_filter, happ, hid, hday]
      have htrue : isOccupied (professionalAppointments appointments prof selectedDate)
          s.value (s.value + serviceDuration) = true := by
        simp only [isOccupied, List.any_eq_true]
        exact ⟨app, hmem, by simp [hover.1, hover.2]⟩
      rw [hocc] at htrue
      exact Bool.false_ne_true htrue

/-- C6, witness: with the appointment 10:00 to 10:30, the emitted slot 09:30
(minute 570) does not overlap it. -/
theorem slots_do_not_overlap_appointments_witness :
    ¬((mkSlot 570).value < (630 : Int) ∧ (600 : Int) < (mkSlot 570).value + 30) :=
  (slots_do_not_overlap_appointments 0 [⟨1, 600, 630⟩] plainProf 30).1
    (mkSlot 570) (by decide) ⟨1, 600, 630⟩ (by decide) rfl (by decide)

/-- C7: when a lunch break is configured, no output slot starts during
lunch, any output slot starting before lunch has its whole service window
before lunch starts, and consequently no output slot's half-open service
window overlaps the lunch interval. -/
theorem slots_do_not_overlap_lunch (selectedDate : Int)
    (appointments : List AppointmentType) (prof : ProfessionalType)
    (serviceDuration lsh lsm leh lem : Int)
    (hls : prof.lunch_start_time = some (lsh, lsm))
    (hle : prof.lunch_end_time = some (leh, lem)) :
    ∀ s ∈ timeSlots selectedDate appointments (some prof) serviceDuration,
      ¬(dayTime selectedDate lsh lsm ≤ s.value ∧ s.value < dayTime selectedDate leh lem) ∧
      (s.value < dayTime selectedDate lsh lsm →
        s.value + serviceDuration ≤ dayTime selectedDate lsh lsm) ∧
      ¬(s.value < dayTime selectedDate leh lem ∧
        dayTime selectedDate lsh lsm < s.value + serviceDuration) := by
  intro s hs
  cases hws : prof.work_start_time with
  | none =>
    rw [timeSlots_eq_nil _ _ _ _ (Or.inl hws)] at hs
    simp at hs
  | some p =>
    cases hwe : prof.work_end_time with
    | none =>
      rw [timeSlots_eq_nil _ _ _ _ (Or.inr hwe)] at hs
      simp at hs
    | some q =>
      obtain ⟨sh, sm⟩ := p
      obtain ⟨eh, em⟩ := q
      rw [timeSlots_eq selectedDate appointments prof serviceDuration sh sm eh em hws hwe] at hs
      obtain ⟨k, -, -, -, -, -, hlunch⟩ := mem_genSlotsFuel hs
      rw [hls, hle] at hlunch
      simp only [Option.map_some', isDuringLunch, Bool.or_eq_false_iff,
        Bool.and_eq_false_iff, decide_eq_false_iff_not, not_le, not_lt] at hlunch
      refine ⟨?_, ?_, ?_⟩ <;> omega

/-- C7, witness: with lunch 12:00 to 13:00, the emitted slot 13:00
(minute 780) does not start during lunch. -/
theorem slots_do_not_overlap_lunch_witness :
    ¬(dayTime 0 12 0 ≤ (mkSlot 780).value ∧ (mkSlot 780).value < dayTime 0 13 0) :=
  (slots_do_not_overlap_lunch 0 [] lunchProf 30 12 0 13 0 rfl rfl
    (mkSlot 780) (by decide)).1

/-- C10: the wall-clock-anchored revision and the always-from-work-start
revision produce identical output whenever the selected date is not the
current day, or the current time is not after the work-day start, for
positive service durations. -/
theorem timeSlotsAnchored_agrees_when_not_anchored (now selectedDate : Int)
    (appointments : List AppointmentType) (professional : Option ProfessionalType)
    (serviceDuration : Int) (hdur : 0 < serviceDuration)
    (h : sameDay selectedDate now = false ∨
      ∀ prof sh sm, professional = some prof → prof.work_start_time = some (sh, sm) →
        now ≤ dayTime selectedDate sh sm) :
    timeSlotsAnchored now selectedDate appointments professional serviceDuration =
      timeSlots selectedDate appointments professional serviceDuration := by
  cases professional with
  | none => rfl
  | some prof =>
    obtain ⟨pid, pws, pwe, pls, ple⟩ := prof
    cases pws with
    | none => rfl
    | some p =>
      obtain ⟨sh, sm⟩ := p
      cases pwe with
      | none => rfl
      | some q =>
        obtain ⟨eh, em⟩ := q
        have hcond : (sameDay selectedDate now
            && decide (dayTime selectedDate sh sm < now)) = false := by
          rcases h with h | h
          · rw [h, Bool.false_and]
          · have hnow := h ⟨pid, some (sh, sm), some (eh, em), pls, ple⟩ sh sm rfl rfl
            rw [decide_eq_false (not_lt.mpr hnow), Bool.and_false]
        simp only [timeSlotsAnchored, timeSlots, hcond, Bool.false_eq_true, if_false]
        simp only [slotInterval]
        exact genSlotsRev1Fuel_eq_genSlotsFuel hdur _ _ _ (by omega) (by omega)

/-- C10, witness: for a selected day far from the current day, the two
revisions agree on a concrete schedule. -/
theorem timeSlotsAnchored_agrees_when_not_anchored_witness :
    timeSlotsAnchored 99999 0 [] (some lunchProf) 30 = timeSlots 0 [] (some lunchProf) 30 :=
  timeSlotsAnchored_agrees_when_not_anchored 99999 0 [] (some lunchProf) 30
    (by decide) (Or.inl (by decide))

end SSD
